import Mathlib

/-
  Shallow embedding of the cart / checkout / order-history logic of the
  storefront app (src/unnamed/part_000 = Cart screen, src/app/(tabs)/Checkout.tsx,
  src/app/(tabs)/Notifications.tsx).

  Conventions of the embedding:
  * JS numbers are modelled as Int (all amounts in the data are integer
    currency units, far below 2^53, so float arithmetic on them is exact).
  * `parseFloat` is modelled on the dot-free strings the code feeds it:
    optional leading whitespace, optional sign, then a maximal digit run;
    an empty digit run is NaN, modelled as `none`.  NaN poisons the
    running sum of the totalling fold, hence the Option accumulator.
  * `Number.prototype.toLocaleString()` is modelled in the app's display
    locale (vi-VN): thousands grouped with '.', which is the convention the
    code's own price parser reverses.
  * `orderDate` on fetched orders is modelled as the epoch-millisecond
    timestamp that `new Date(orderDate)` denotes; the comparator in
    `fetchOrders` subtracts exactly these timestamps.  `formatDate`'s
    day/month/year extraction is modelled at UTC offset 0.
  * The remote store is modelled as the single signed-in user's record:
    a `cart` field and the order collection, together with the list of
    remote write calls a handler attempts.
-/

/-! ## JS string and number primitives -/

/-- The whitespace class trimmed by `String.prototype.trim` (ASCII part). -/
def isJsWhitespace (c : Char) : Bool :=
  c == ' ' || c == '\t' || c == '\n' || c == '\r' || c == '\x0b' || c == '\x0c'

/-- Model of `String.prototype.trim`. -/
def jsTrim (s : String) : String :=
  String.mk (((s.toList.dropWhile isJsWhitespace).reverse.dropWhile isJsWhitespace).reverse)

/-- `segStart needle hay`: `needle` occurs at the start of `hay`. -/
def segStart : List Char → List Char → Bool
  | [], _ => true
  | _ :: _, [] => false
  | a :: as, b :: bs => a == b && segStart as bs

/-- `segIn needle hay`: `needle` occurs contiguously somewhere in `hay`. -/
def segIn (needle : List Char) : List Char → Bool
  | [] => needle.isEmpty
  | c :: rest => segStart needle (c :: rest) || segIn needle rest

/-- Model of `String.prototype.includes`. -/
def jsIncludes (s pat : String) : Bool :=
  segIn pat.toList s.toList

/-- Value of a digit run, most significant digit first. -/
def digitsToNat (ds : List Char) : Nat :=
  ds.foldl (fun a c => a * 10 + (c.toNat - '0'.toNat)) 0

/-- Maximal leading digit run; `none` when there is no digit (NaN). -/
def digitRun (cs : List Char) : Option Nat :=
  let ds := cs.takeWhile Char.isDigit
  if ds.isEmpty then none else some (digitsToNat ds)

/-- Model of `parseFloat` on the dot-free strings the code produces:
leading whitespace, optional sign, maximal digit run; `none` is NaN. -/
def jsParseFloat (cs : List Char) : Option Int :=
  let t := cs.dropWhile isJsWhitespace
  match t with
  | '-' :: rest => (digitRun rest).map (fun n => -(n : Int))
  | '+' :: rest => (digitRun rest).map (fun n => (n : Int))
  | _ => (digitRun t).map (fun n => (n : Int))

/-- Model of `.replace('đ', '')`: removes the first occurrence only. -/
def removeFirstDong : List Char → List Char
  | [] => []
  | c :: rest => if c == 'đ' then rest else c :: removeFirstDong rest

/-- `parseFloat(item.price.replace(/\./g, '').replace('đ', ''))` from
Checkout.tsx line 115 and part_000 line 84. -/
def parsePrice (price : String) : Option Int :=
  jsParseFloat (removeFirstDong (price.toList.filter (fun c => c != '.')))

/-- Insert a '.' after every third character; input is the digit list least
significant digit first. -/
def groupGo : List Char → List Char
  | [] => []
  | [a] => [a]
  | [a, b] => [a, b]
  | [a, b, c] => [a, b, c]
  | a :: b :: c :: d :: rest => a :: b :: c :: '.' :: groupGo (d :: rest)

/-- Model of `Number.prototype.toLocaleString()` in the app's locale:
thousands grouped with '.'. -/
def jsToLocaleString (n : Int) : String :=
  let core := String.mk ((groupGo (toString n.natAbs).toList.reverse).reverse)
  if n < 0 then "-" ++ core else core

/-! ## Data model -/

/-- A cart line (`CartItem` interface in both Cart and Checkout screens). -/
structure CartItem where
  id : String
  productId : String
  name : String
  price : String
  image : String
  quantity : Int
  category : Option String
deriving DecidableEq

/-- `UserInfo` interface. -/
structure UserInfo where
  id : String
  fullName : String
  email : String
  phoneNumber : String
deriving DecidableEq

/-- Customer snapshot placed inside an order (Checkout.tsx lines 155-160). -/
structure CustomerInfo where
  fullName : String
  email : String
  phoneNumber : String
  address : String
deriving DecidableEq

/-- A cart line augmented with the derived `type` field
(Checkout.tsx lines 161-164). -/
structure OrderItem where
  item : CartItem
  type : String
deriving DecidableEq

/-- The order object built by `handlePlaceOrder` (Checkout.tsx lines 152-171). -/
structure OrderRecord where
  id : String
  userId : String
  customerInfo : CustomerInfo
  items : List OrderItem
  totalAmount : String
  shippingFee : String
  finalAmount : String
  paymentMethod : String
  status : String
  orderDate : String
deriving DecidableEq

/-- The remote store, restricted to the signed-in user: the user's `cart`
field and the order collection. -/
structure ServerState where
  cart : List CartItem
  orders : List OrderRecord
deriving DecidableEq

/-- Outcome surfaced to the user by `handlePlaceOrder`:
`validationError` is the address alert at lines 133-136, `notAuthenticated`
the redirect at lines 141-144, `placementError` the catch-branch alert at
lines 190-194, `success` the success alert at lines 179-189. -/
inductive PlaceResult where
  | validationError
  | notAuthenticated
  | placementError
  | success
deriving DecidableEq

/-- A remote write attempted by `handlePlaceOrder`. -/
inductive RemoteCall where
  | postOrder (o : OrderRecord)
  | patchCart (cart : List CartItem)
deriving DecidableEq

/-! ## Cart Store Accessor (src/unnamed/part_000) -/

/-- One step of the reduce inside `calculateTotalPrice`: add the line's
parsed price times its quantity to the running sum; a NaN price (or an
already-NaN sum) yields NaN. -/
def totalStep (sum : Option Int) (item : CartItem) : Option Int :=
  match sum, parsePrice item.price with
  | some s, some p => some (s + p * item.quantity)
  | _, _ => none

/-- Core of `calculateTotalPrice` (part_000 lines 82-88, Checkout.tsx lines
113-119): reduce over the lines, adding parsed price times quantity; a NaN
price poisons the whole sum. -/
def calculateTotalPrice (items : List CartItem) : Option Int :=
  items.foldl totalStep (some 0)

/-- Cart written back by `updateQuantity` (part_000 lines 96-101):
`newQuantity == 0` filters the line out, otherwise every line with the id
gets the new quantity. -/
def updateQuantity (cartItems : List CartItem) (itemId : String)
    (newQuantity : Int) : List CartItem :=
  if newQuantity = 0 then
    cartItems.filter (fun item => item.id != itemId)
  else
    cartItems.map
      (fun item =>
        if item.id == itemId then { item with quantity := newQuantity } else item)

/-- Cart written back by `removeItem` (part_000 line 118). -/
def removeItem (cartItems : List CartItem) (itemId : String) : List CartItem :=
  cartItems.filter (fun item => item.id != itemId)

/-- Cart written back by `removeAllItems` (part_000 line 134). -/
def removeAllItems : List CartItem := []

/-- The cart that `fetchCartData` (part_000 lines 58-80) returns to the
screen: the `cart` field of the fetched user resource. -/
def fetchCartData (st : ServerState) : List CartItem :=
  st.cart

/-! ## Checkout Assembler and Order Placement (Checkout.tsx) -/

/-- `getItemType` (Checkout.tsx lines 121-130). -/
def getItemType (productId : String) : String :=
  if jsIncludes productId "a" then "pot"
  else if jsIncludes productId "b" then "accessory"
  else "plant"

/-- The order object assembled by `handlePlaceOrder` (Checkout.tsx lines
146-171) from the profile snapshot, the address, the cart snapshot, the
precomputed subtotal, the shipping fee, the payment method and the
generated id and ISO date. -/
def assembleOrder (uid : String) (ui : UserInfo) (address : String)
    (cartItems : List CartItem) (totalPrice shippingFee : Int)
    (paymentMethod orderId orderDate : String) : OrderRecord :=
  { id := orderId
    userId := uid
    customerInfo :=
      { fullName := ui.fullName
        email := ui.email
        phoneNumber := ui.phoneNumber
        address := address }
    items := cartItems.map (fun item => ⟨item, getItemType item.productId⟩)
    totalAmount := jsToLocaleString totalPrice ++ "đ"
    shippingFee := jsToLocaleString shippingFee ++ "đ"
    finalAmount := jsToLocaleString (totalPrice + shippingFee) ++ "đ"
    paymentMethod := paymentMethod
    status := "Đang xử lý"
    orderDate := orderDate }

/-- The order placement transaction (Checkout.tsx lines 173-194): POST the
order, then PATCH the cart to `[]`; a failure of either remote call throws
into the shared catch, which reports the placement error.  `postOk` and
`patchOk` say whether each remote call succeeds; the returned list records
the remote writes attempted in order. -/
def placeOrder (st : ServerState) (newOrder : OrderRecord)
    (postOk patchOk : Bool) : PlaceResult × ServerState × List RemoteCall :=
  if postOk then
    let st1 : ServerState := { st with orders := st.orders ++ [newOrder] }
    if patchOk then
      (.success, { st1 with cart := [] }, [.postOrder newOrder, .patchCart []])
    else
      (.placementError, st1, [.postOrder newOrder, .patchCart []])
  else
    (.placementError, st, [.postOrder newOrder])

/-- `handlePlaceOrder` (Checkout.tsx lines 132-195) as a transition on the
remote store.  Inputs that the component reads from its environment are
parameters: the session lookup (`sess`, `none` when AsyncStorage has no
`userId`; the empty string is falsy in `!userId` just like null), the
`userInfo` state, the address field, the cart snapshot, the precomputed
subtotal and shipping fee, the payment method, the generated order id and
ISO date, and whether each of the two remote calls succeeds. -/
def handlePlaceOrder (st : ServerState) (sess : Option String)
    (userInfo : Option UserInfo) (address : String)
    (cartItems : List CartItem) (totalPrice shippingFee : Int)
    (paymentMethod orderId orderDate : String) (postOk patchOk : Bool) :
    PlaceResult × ServerState × List RemoteCall :=
  if jsTrim address = "" then
    (.validationError, st, [])
  else
    match sess, userInfo with
    | some uid, some ui =>
      if uid = "" then (.notAuthenticated, st, [])
      else
        placeOrder st
          (assembleOrder uid ui address cartItems totalPrice shippingFee
            paymentMethod orderId orderDate)
          postOk patchOk
    | _, _ => (.notAuthenticated, st, [])

/-! ## Order History Reader (src/app/(tabs)/Notifications.tsx) -/

/-- A fetched order as the history screen uses it: its identity and the
epoch-millisecond timestamp denoted by its stored `orderDate` string. -/
structure HistOrder where
  id : String
  orderDate : Int
deriving DecidableEq

/-- Insert an order into an already-processed suffix, jumping over exactly
the strictly more recent orders.  Together with `sortOrdersDesc` this is the
unique result of the ECMAScript stable `sort((a, b) => dateB - dateA)` at
Notifications.tsx lines 37-39: descending by timestamp, ties in original
fetch order. -/
def insertOrderDesc (o : HistOrder) : List HistOrder → List HistOrder
  | [] => [o]
  | y :: ys => if o.orderDate < y.orderDate then y :: insertOrderDesc o ys else o :: y :: ys

/-- The sorted order list produced inside `fetchOrders`. -/
def sortOrdersDesc : List HistOrder → List HistOrder
  | [] => []
  | x :: xs => insertOrderDesc x (sortOrdersDesc xs)

/-- `fetchOrders` (Notifications.tsx lines 25-49) on a successful response:
the fetched collection sorted newest first. -/
def fetchOrders (responseData : List HistOrder) : List HistOrder :=
  sortOrdersDesc responseData

/-- Civil calendar date (year, month 1-12, day 1-31) from a count of days
since 1970-01-01 (proleptic Gregorian). -/
def civilFromDays (z0 : Int) : Int × Nat × Nat :=
  let z := z0 + 719468
  let era := Int.fdiv z 146097
  let doe := (z - era * 146097).toNat
  let yoe := (doe - doe / 1460 + doe / 36524 - doe / 146096) / 365
  let doy := doe - (365 * yoe + yoe / 4 - yoe / 100)
  let mp := (5 * doy + 2) / 153
  let d := doy - (153 * mp + 2) / 5 + 1
  let m := if mp < 10 then mp + 3 else mp - 9
  ((yoe : Int) + era * 400 + (if m ≤ 2 then 1 else 0), m, d)

/-- `formatDate` (Notifications.tsx lines 78-81):
`getDate()/getMonth()+1/getFullYear()` of the timestamp, at UTC offset 0. -/
def formatDate (ts : Int) : String :=
  let c := civilFromDays (Int.fdiv ts 86400000)
  toString c.2.2 ++ "/" ++ toString c.2.1 ++ "/" ++ toString c.1

/-- One step of the `forEach` in `groupOrdersByDate`: push the order onto
the bucket of its key if the key already exists, otherwise append a fresh
singleton bucket at the end (JS object string keys keep insertion order). -/
def addToGroup : List (String × List HistOrder) → String → HistOrder →
    List (String × List HistOrder)
  | [], k, o => [(k, [o])]
  | (k', os) :: rest, k, o =>
    if k' = k then (k', os ++ [o]) :: rest else (k', os) :: addToGroup rest k o

/-- `groupOrdersByDate` (Notifications.tsx lines 84-96) on a given order
list. -/
def groupOrdersByDate (orders : List HistOrder) : List (String × List HistOrder) :=
  orders.foldl (fun g o => addToGroup g (formatDate o.orderDate) o) []

/-- The keys of a list in first-seen order. -/
def firstSeenKeys (ks : List String) : List String :=
  ks.foldl (fun acc k => if k ∈ acc then acc else acc ++ [k]) []

/-- The bucket stored under a key (empty when the key is absent). -/
def bucketOf (g : List (String × List HistOrder)) (k : String) : List HistOrder :=
  ((g.find? (fun p => p.fst == k)).map Prod.snd).getD []

/-! ## Support lemmas -/

/-- When every price parses, the totalling fold started at `s` adds the sum
of price-times-quantity over the lines. -/
theorem calcTotal_foldl_all_parse (items : List CartItem) :
    ∀ s : Int, (∀ it ∈ items, (parsePrice it.price).isSome = true) →
      items.foldl totalStep (some s) =
      some (s + (items.map (fun it => (parsePrice it.price).getD 0 * it.quantity)).sum) := by
  induction items with
  | nil => intro s _; simp
  | cons x xs ih =>
    intro s h
    obtain ⟨p, hp⟩ := Option.isSome_iff_exists.mp (h x (List.mem_cons_self x xs))
    have hrest : ∀ it ∈ xs, (parsePrice it.price).isSome = true :=
      fun it hit => h it (List.mem_cons_of_mem x hit)
    simp only [List.foldl_cons, totalStep, hp]
    rw [ih (s + p * x.quantity) hrest]
    simp [hp, Int.add_assoc]

/-! ## Claim theorems -/

/-- C3: `calculateTotalPrice` parses each line's formatted price string
(stripping the '.' separators and the 'đ' glyph), multiplies by the line's
quantity and sums; on a cart priced "10.000đ" at quantity 2 and "5.000đ"
at quantity 3 it returns 35000. -/
theorem computeTotal_parses_and_sums :
    calculateTotalPrice
        [{ id := "1", productId := "p1", name := "n1", price := "10.000đ",
           image := "i1", quantity := 2, category := none },
         { id := "2", productId := "p2", name := "n2", price := "5.000đ",
           image := "i2", quantity := 3, category := none }] = some 35000 ∧
    parsePrice "10.000đ" = some 10000 ∧
    parsePrice "5.000đ" = some 5000 ∧
    ∀ items : List CartItem,
      (∀ it ∈ items, (parsePrice it.price).isSome = true) →
      calculateTotalPrice items =
        some ((items.map (fun it => (parsePrice it.price).getD 0 * it.quantity)).sum) := by
  refine ⟨by decide, by decide, by decide, ?_⟩
  intro items h
  unfold calculateTotalPrice
  rw [calcTotal_foldl_all_parse items 0 h]
  simp

/-- C3 witness: the general summation clause applied to a concrete cart. -/
theorem computeTotal_parses_and_sums_witness :
    calculateTotalPrice
        [{ id := "9", productId := "p9", name := "n9", price := "2.000đ",
           image := "i9", quantity := 5, category := none }] =
      some ((([{ id := "9", productId := "p9", name := "n9", price := "2.000đ",
                 image := "i9", quantity := 5, category := none }] : List CartItem).map
          (fun it => (parsePrice it.price).getD 0 * it.quantity)).sum) :=
  computeTotal_parses_and_sums.2.2.2 _ (by decide)

/-- C4: `updateQuantity cart id 0` removes every line whose id equals `id`
and leaves every other line unchanged in value and relative order (the
result is a sublist of the cart, keeps every other line with its exact
multiplicity, and contains no line with the removed id). -/
theorem setQuantity_zero_removes_line :
    ∀ (cart : List CartItem) (itemId : String),
      List.Sublist (updateQuantity cart itemId 0) cart ∧
      (∀ l ∈ updateQuantity cart itemId 0, l.id ≠ itemId) ∧
      (∀ l ∈ cart, l.id ≠ itemId → l ∈ updateQuantity cart itemId 0) ∧
      (∀ l : CartItem, l.id ≠ itemId →
        (updateQuantity cart itemId 0).count l = cart.count l) := by
  intro cart itemId
  have hdef : updateQuantity cart itemId 0 =
      cart.filter (fun item => item.id != itemId) := by
    simp [updateQuantity]
  refine ⟨?_, ?_, ?_, ?_⟩
  · rw [hdef]; exact List.filter_sublist cart
  · intro l hl
    rw [hdef, List.mem_filter] at hl
    exact bne_iff_ne.mp hl.2
  · intro l hl hne
    rw [hdef, List.mem_filter]
    exact ⟨hl, bne_iff_ne.mpr hne⟩
  · intro l hne
    rw [hdef]
    exact List.count_filter (bne_iff_ne.mpr hne)

/-- C4 witness: removing id "1" from a concrete two-line cart keeps the
other line with its multiplicity and drops the targeted line. -/
theorem setQuantity_zero_removes_line_witness :
    ({ id := "2", productId := "q", name := "m", price := "5.000đ",
       image := "j", quantity := 3, category := none } : CartItem) ∈
      updateQuantity
        [{ id := "1", productId := "p", name := "n", price := "10.000đ",
           image := "i", quantity := 2, category := none },
         { id := "2", productId := "q", name := "m", price := "5.000đ",
           image := "j", quantity := 3, category := none }] "1" 0 ∧
    (updateQuantity
        [{ id := "1", productId := "p", name := "n", price := "10.000đ",
           image := "i", quantity := 2, category := none },
         { id := "2", productId := "q", name := "m", price := "5.000đ",
           image := "j", quantity := 3, category := none }] "1" 0).count
      { id := "2", productId := "q", name := "m", price := "5.000đ",
        image := "j", quantity := 3, category := none } =
      ([{ id := "1", productId := "p", name := "n", price := "10.000đ",
          image := "i", quantity := 2, category := none },
        { id := "2", productId := "q", name := "m", price := "5.000đ",
          image := "j", quantity := 3, category := none }] : List CartItem).count
        { id := "2", productId := "q", name := "m", price := "5.000đ",
          image := "j", quantity := 3, category := none } :=
  ⟨(setQuantity_zero_removes_line _ "1").2.2.1 _ (by decide) (by decide),
   (setQuantity_zero_removes_line _ "1").2.2.2 _ (by decide)⟩

/-- C5: starting from a cart whose lines all have quantity at least 1,
every cart the Cart screen writes back — a decrement, an increment, or a
line removal — again has only lines with quantity at least 1, and a
decrement that reaches 0 removes the line entirely. -/
theorem cart_quantity_ge_one_invariant :
    ∀ (cart : List CartItem) (l : CartItem),
      (∀ it ∈ cart, 1 ≤ it.quantity) → l ∈ cart →
      (∀ it ∈ updateQuantity cart l.id (l.quantity - 1), 1 ≤ it.quantity) ∧
      (∀ it ∈ updateQuantity cart l.id (l.quantity + 1), 1 ≤ it.quantity) ∧
      (∀ it ∈ removeItem cart l.id, 1 ≤ it.quantity) ∧
      (l.quantity = 1 →
        ∀ it ∈ updateQuantity cart l.id (l.quantity - 1), it.id ≠ l.id) := by
  intro cart l h hl
  have hq1 : 1 ≤ l.quantity := h l hl
  refine ⟨?_, ?_, ?_, ?_⟩
  · intro it hit
    by_cases hz : l.quantity - 1 = 0
    · rw [updateQuantity, if_pos hz] at hit
      exact h it (List.mem_of_mem_filter hit)
    · rw [updateQuantity, if_neg hz] at hit
      rw [List.mem_map] at hit
      obtain ⟨a, ha, rfl⟩ := hit
      by_cases hid : a.id == l.id
      · rw [if_pos hid]
        show 1 ≤ l.quantity - 1
        omega
      · rw [if_neg hid]
        exact h a ha
  · intro it hit
    have hz : ¬(l.quantity + 1 = 0) := by omega
    rw [updateQuantity, if_neg hz] at hit
    rw [List.mem_map] at hit
    obtain ⟨a, ha, rfl⟩ := hit
    by_cases hid : a.id == l.id
    · rw [if_pos hid]
      show 1 ≤ l.quantity + 1
      omega
    · rw [if_neg hid]
      exact h a ha
  · intro it hit
    exact h it (List.mem_of_mem_filter hit)
  · intro hone it hit
    have hz : l.quantity - 1 = 0 := by omega
    rw [updateQuantity, if_pos hz] at hit
    rw [List.mem_filter] at hit
    exact bne_iff_ne.mp hit.2

/-- C5 witness: after decrementing the quantity-1 line of a concrete cart,
the surviving line still has quantity at least 1. -/
theorem cart_quantity_ge_one_invariant_witness :
    1 ≤ ({ id := "2", productId := "q", name := "m", price := "5.000đ",
           image := "j", quantity := 3, category := none } : CartItem).quantity :=
  (cart_quantity_ge_one_invariant
      [{ id := "1", productId := "p", name := "n", price := "10.000đ",
         image := "i", quantity := 1, category := none },
       { id := "2", productId := "q", name := "m", price := "5.000đ",
         image := "j", quantity := 3, category := none }]
      { id := "1", productId := "p", name := "n", price := "10.000đ",
        image := "i", quantity := 1, category := none }
      (by decide) (by decide)).1
    { id := "2", productId := "q", name := "m", price := "5.000đ",
      image := "j", quantity := 3, category := none }
    (by decide)

/-- The trimmed address is empty exactly when the address consists of
whitespace only. -/
theorem jsTrim_eq_empty_iff (s : String) :
    jsTrim s = "" ↔ s.toList.all isJsWhitespace = true := by
  have key : ∀ l : List Char,
      (∀ x ∈ l.dropWhile isJsWhitespace, isJsWhitespace x = true) →
      l.dropWhile isJsWhitespace = [] := by
    intro l h
    cases hd : l.dropWhile isJsWhitespace with
    | nil => rfl
    | cons y ys =>
      have h0 : 0 < (l.dropWhile isJsWhitespace).length := by
        rw [hd]; simp
      have hnot := List.dropWhile_get_zero_not (p := isJsWhitespace) l h0
      have hy : (l.dropWhile isJsWhitespace).get ⟨0, h0⟩ = y := by
        simp [hd]
      rw [hy] at hnot
      exact absurd (h y (by rw [hd]; exact List.mem_cons_self y ys)) (by simpa using hnot)
  unfold jsTrim
  rw [String.ext_iff]
  show ((s.toList.dropWhile isJsWhitespace).reverse.dropWhile
      isJsWhitespace).reverse = ([] : List Char) ↔ _
  rw [List.reverse_eq_nil_iff, List.all_eq_true]
  constructor
  · intro h
    have h2 : ∀ x ∈ (s.toList.dropWhile isJsWhitespace).reverse,
        isJsWhitespace x = true :=
      List.dropWhile_eq_nil_iff.mp h
    have h3 : ∀ x ∈ s.toList.dropWhile isJsWhitespace, isJsWhitespace x = true :=
      fun x hx => h2 x (List.mem_reverse.mpr hx)
    exact List.dropWhile_eq_nil_iff.mp (key s.toList h3)
  · intro h
    rw [List.dropWhile_eq_nil_iff.mpr h]
    rfl


/-- Unfolding of `handlePlaceOrder` for an authenticated session. -/
theorem handlePlaceOrder_some_some (st : ServerState) (uid : String)
    (ui : UserInfo) (address : String) (cartItems : List CartItem)
    (totalPrice shippingFee : Int) (paymentMethod orderId orderDate : String)
    (postOk patchOk : Bool) :
    handlePlaceOrder st (some uid) (some ui) address cartItems totalPrice
        shippingFee paymentMethod orderId orderDate postOk patchOk =
      if jsTrim address = "" then (.validationError, st, [])
      else if uid = "" then (.notAuthenticated, st, [])
      else
        placeOrder st
          (assembleOrder uid ui address cartItems totalPrice shippingFee
            paymentMethod orderId orderDate)
          postOk patchOk :=
  rfl

/-- Unfolding of `handlePlaceOrder` when no session id is stored. -/
theorem handlePlaceOrder_no_sess (st : ServerState)
    (userInfo : Option UserInfo) (address : String)
    (cartItems : List CartItem) (totalPrice shippingFee : Int)
    (paymentMethod orderId orderDate : String) (postOk patchOk : Bool) :
    handlePlaceOrder st none userInfo address cartItems totalPrice shippingFee
        paymentMethod orderId orderDate postOk patchOk =
      if jsTrim address = "" then (.validationError, st, [])
      else (.notAuthenticated, st, []) := by
  cases userInfo <;> rfl

/-- Unfolding of `handlePlaceOrder` when no user profile is loaded. -/
theorem handlePlaceOrder_no_userInfo (st : ServerState) (sess : Option String)
    (address : String) (cartItems : List CartItem)
    (totalPrice shippingFee : Int) (paymentMethod orderId orderDate : String)
    (postOk patchOk : Bool) :
    handlePlaceOrder st sess none address cartItems totalPrice shippingFee
        paymentMethod orderId orderDate postOk patchOk =
      if jsTrim address = "" then (.validationError, st, [])
      else (.notAuthenticated, st, []) := by
  cases sess <;> rfl

/-- The placement transaction itself never reports the validation error. -/
theorem placeOrder_fst_ne_validation (st : ServerState) (o : OrderRecord)
    (postOk patchOk : Bool) :
    (placeOrder st o postOk patchOk).1 ≠ PlaceResult.validationError := by
  cases postOk <;> cases patchOk <;> simp [placeOrder]

/-- C7: `handlePlaceOrder` reports the validation error exactly when the
address is empty or whitespace-only, and in that case submission is blocked
before any network call: no remote write is attempted, the remote state
(cart and orders) is untouched, and no other input can trigger the
validation error — the address check is the sole required-field gate. -/
theorem address_validation_gate :
    ∀ (st : ServerState) (sess : Option String) (userInfo : Option UserInfo)
      (address : String) (cartItems : List CartItem)
      (totalPrice shippingFee : Int)
      (paymentMethod orderId orderDate : String) (postOk patchOk : Bool),
      ((handlePlaceOrder st sess userInfo address cartItems totalPrice
            shippingFee paymentMethod orderId orderDate postOk patchOk).1 =
          PlaceResult.validationError ↔
        address.toList.all isJsWhitespace = true) ∧
      (address.toList.all isJsWhitespace = true →
        handlePlaceOrder st sess userInfo address cartItems totalPrice
            shippingFee paymentMethod orderId orderDate postOk patchOk =
          (PlaceResult.validationError, st, [])) := by
  intro st sess userInfo address cartItems totalPrice shippingFee pm oid odate postOk patchOk
  by_cases h : jsTrim address = ""
  · have ha := (jsTrim_eq_empty_iff address).mp h
    have hres : handlePlaceOrder st sess userInfo address cartItems totalPrice
        shippingFee pm oid odate postOk patchOk =
        (PlaceResult.validationError, st, []) := by
      unfold handlePlaceOrder
      rw [if_pos h]
    exact ⟨⟨fun _ => ha, fun _ => by rw [hres]⟩, fun _ => hres⟩
  · have ha : ¬(address.toList.all isJsWhitespace = true) :=
      fun hh => h ((jsTrim_eq_empty_iff address).mpr hh)
    have hne : (handlePlaceOrder st sess userInfo address cartItems totalPrice
        shippingFee pm oid odate postOk patchOk).1 ≠
        PlaceResult.validationError := by
      rcases sess with _ | uid
      · rw [handlePlaceOrder_no_sess, if_neg h]
        simp
      · rcases userInfo with _ | ui
        · rw [handlePlaceOrder_no_userInfo, if_neg h]
          simp
        · rw [handlePlaceOrder_some_some, if_neg h]
          by_cases huid : uid = ""
          · rw [if_pos huid]
            simp
          · rw [if_neg huid]
            exact placeOrder_fst_ne_validation st _ postOk patchOk
    exact ⟨⟨fun hc => absurd hc hne, fun hh => absurd hh ha⟩,
      fun hh => absurd hh ha⟩

/-- C7 witness: a whitespace-only address blocks submission with no remote
write and an unchanged remote state. -/
theorem address_validation_gate_witness :
    handlePlaceOrder ⟨[], []⟩ none none "   " [] 0 0 "COD" "o" "d" true true =
      (PlaceResult.validationError, ⟨[], []⟩, []) :=
  (address_validation_gate ⟨[], []⟩ none none "   " [] 0 0 "COD" "o" "d"
    true true).2 (by decide)

/-- C1: when the order-creation POST fails, nothing is committed — for every
remote state and assembled order, `placeOrder` reports the placement error,
leaves the remote state (orders and persisted cart) exactly as it was, and
never attempts the clear-cart write; the same outcome is surfaced through
`handlePlaceOrder` for any authenticated submission. -/
theorem placeOrder_post_failure_atomic :
    ∀ (st : ServerState) (newOrder : OrderRecord) (patchOk : Bool),
      (placeOrder st newOrder false patchOk).1 = PlaceResult.placementError ∧
      (placeOrder st newOrder false patchOk).2.1 = st ∧
      (∀ c ∈ (placeOrder st newOrder false patchOk).2.2,
        ∀ cl : List CartItem, c ≠ RemoteCall.patchCart cl) ∧
      (∀ (uid : String) (ui : UserInfo) (address : String)
          (cartItems : List CartItem) (totalPrice shippingFee : Int)
          (paymentMethod orderId orderDate : String),
        jsTrim address ≠ "" → uid ≠ "" →
        (handlePlaceOrder st (some uid) (some ui) address cartItems totalPrice
              shippingFee paymentMethod orderId orderDate false patchOk).1 =
            PlaceResult.placementError ∧
          (handlePlaceOrder st (some uid) (some ui) address cartItems
              totalPrice shippingFee paymentMethod orderId orderDate false
              patchOk).2.1 = st) := by
  intro st newOrder patchOk
  have hfst : ∀ o : OrderRecord,
      (placeOrder st o false patchOk).1 = PlaceResult.placementError := fun _ => rfl
  have hst : ∀ o : OrderRecord, (placeOrder st o false patchOk).2.1 = st :=
    fun _ => rfl
  refine ⟨hfst newOrder, hst newOrder, ?_, ?_⟩
  · intro c hc cl
    have hcalls : (placeOrder st newOrder false patchOk).2.2 =
        [RemoteCall.postOrder newOrder] := rfl
    rw [hcalls] at hc
    rcases List.mem_singleton.mp hc with rfl
    simp
  · intro uid ui address cartItems totalPrice shippingFee pm oid odate haddr huid
    rw [handlePlaceOrder_some_some, if_neg haddr, if_neg huid]
    exact ⟨hfst _, hst _⟩

/-- C1 witness: a failing POST on a concrete one-line cart leaves the
remote state untouched and reports the placement error. -/
theorem placeOrder_post_failure_atomic_witness :
    (placeOrder
        ⟨[{ id := "1", productId := "p", name := "n", price := "10.000đ",
            image := "i", quantity := 2, category := none }], []⟩
        (assembleOrder "u1" ⟨"u1", "N", "E", "P"⟩ "123 Main"
          [{ id := "1", productId := "p", name := "n", price := "10.000đ",
             image := "i", quantity := 2, category := none }]
          35000 30000 "COD" "ord1" "2024-01-01T00:00:00.000Z")
        false true).2.1 =
      ⟨[{ id := "1", productId := "p", name := "n", price := "10.000đ",
          image := "i", quantity := 2, category := none }], []⟩ ∧
    (handlePlaceOrder
        ⟨[{ id := "1", productId := "p", name := "n", price := "10.000đ",
            image := "i", quantity := 2, category := none }], []⟩
        (some "u1") (some ⟨"u1", "N", "E", "P"⟩) "123 Main"
        [{ id := "1", productId := "p", name := "n", price := "10.000đ",
           image := "i", quantity := 2, category := none }]
        35000 30000 "COD" "ord1" "2024-01-01T00:00:00.000Z" false true).1 =
      PlaceResult.placementError :=
  ⟨(placeOrder_post_failure_atomic
      ⟨[{ id := "1", productId := "p", name := "n", price := "10.000đ",
          image := "i", quantity := 2, category := none }], []⟩
      (assembleOrder "u1" ⟨"u1", "N", "E", "P"⟩ "123 Main"
        [{ id := "1", productId := "p", name := "n", price := "10.000đ",
           image := "i", quantity := 2, category := none }]
        35000 30000 "COD" "ord1" "2024-01-01T00:00:00.000Z")
      true).2.1,
   ((placeOrder_post_failure_atomic
      ⟨[{ id := "1", productId := "p", name := "n", price := "10.000đ",
          image := "i", quantity := 2, category := none }], []⟩
      (assembleOrder "u1" ⟨"u1", "N", "E", "P"⟩ "123 Main"
        [{ id := "1", productId := "p", name := "n", price := "10.000đ",
           image := "i", quantity := 2, category := none }]
        35000 30000 "COD" "ord1" "2024-01-01T00:00:00.000Z")
      true).2.2.2 "u1" ⟨"u1", "N", "E", "P"⟩ "123 Main"
      [{ id := "1", productId := "p", name := "n", price := "10.000đ",
         image := "i", quantity := 2, category := none }]
      35000 30000 "COD" "ord1" "2024-01-01T00:00:00.000Z"
      (by decide) (by decide)).1⟩

/-- C2: a successful placement with address "123 Main", subtotal 35000 and
the fixed shipping fee 30000 succeeds, appends to the order collection
exactly one order whose `finalAmount` is the formatted string "65.000đ",
and the same transition replaces the persisted cart by the empty list, so a
subsequent `fetchCartData` for that user returns the empty sequence. -/
theorem placeOrder_end_to_end_success :
    ∀ (st : ServerState) (uid : String) (ui : UserInfo)
      (cartItems : List CartItem) (paymentMethod orderId orderDate : String),
      uid ≠ "" →
      ((handlePlaceOrder st (some uid) (some ui) "123 Main" cartItems 35000
            30000 paymentMethod orderId orderDate true true).1 =
          PlaceResult.success) ∧
      (∃ o : OrderRecord,
        (handlePlaceOrder st (some uid) (some ui) "123 Main" cartItems 35000
              30000 paymentMethod orderId orderDate true true).2.1.orders =
            st.orders ++ [o] ∧
          o.finalAmount = "65.000đ") ∧
      fetchCartData
          (handlePlaceOrder st (some uid) (some ui) "123 Main" cartItems 35000
            30000 paymentMethod orderId orderDate true true).2.1 = [] := by
  intro st uid ui cartItems pm oid odate huid
  have h : ¬(jsTrim "123 Main" = "") := by decide
  rw [handlePlaceOrder_some_some, if_neg h, if_neg huid]
  refine ⟨rfl,
    ⟨assembleOrder uid ui "123 Main" cartItems 35000 30000 pm oid odate,
      rfl, ?_⟩, rfl⟩
  show jsToLocaleString (35000 + 30000) ++ "đ" = "65.000đ"
  decide

/-- C2 witness: the end-to-end success scenario at a concrete session. -/
theorem placeOrder_end_to_end_success_witness :
    (handlePlaceOrder ⟨[], []⟩ (some "u1") (some ⟨"u1", "N", "E", "P"⟩)
        "123 Main" [] 35000 30000 "COD" "o1" "d1" true true).1 =
      PlaceResult.success :=
  (placeOrder_end_to_end_success ⟨[], []⟩ "u1" ⟨"u1", "N", "E", "P"⟩ [] "COD"
    "o1" "d1" (by decide)).1

/-- A NaN running sum stays NaN through the rest of the reduce. -/
theorem calcTotal_foldl_none (items : List CartItem) :
    items.foldl totalStep none = none := by
  induction items with
  | nil => rfl
  | cons x xs ih =>
    rw [List.foldl_cons]
    rw [show totalStep none x = none from rfl]
    exact ih

/-- A successful totalling fold is an affine function of its starting
accumulator: the list contributes a fixed total `u`. -/
theorem calcTotal_foldl_shift (items : List CartItem) :
    ∀ s t : Int, items.foldl totalStep (some s) = some t →
      ∃ u : Int, t = s + u ∧
        ∀ s' : Int, items.foldl totalStep (some s') = some (s' + u) := by
  induction items with
  | nil =>
    intro s t ht
    rw [List.foldl_nil] at ht
    injection ht with h
    exact ⟨0, by omega, fun s' => by rw [List.foldl_nil, Int.add_zero]⟩
  | cons x xs ih =>
    intro s t ht
    rw [List.foldl_cons] at ht
    cases hp : parsePrice x.price with
    | none =>
      rw [show totalStep (some s) x = none from by simp [totalStep, hp],
        calcTotal_foldl_none] at ht
      exact absurd ht (by simp)
    | some p =>
      rw [show totalStep (some s) x = some (s + p * x.quantity) from by
        simp [totalStep, hp]] at ht
      obtain ⟨u, hu, hshift⟩ := ih (s + p * x.quantity) t ht
      refine ⟨p * x.quantity + u, by rw [hu, Int.add_assoc], fun s' => ?_⟩
      rw [List.foldl_cons,
        show totalStep (some s') x = some (s' + p * x.quantity) from by
          simp [totalStep, hp],
        hshift (s' + p * x.quantity), Int.add_assoc]

/-- Raising the quantity of a line whose price parses nonnegative never
lowers a successful totalling fold, from any starting accumulator. -/
theorem calcTotal_foldl_mono :
    ∀ (items : List CartItem) (i : Nat) (hi : i < items.length) (q' : Int),
      (items.get ⟨i, hi⟩).quantity ≤ q' →
      0 ≤ (parsePrice (items.get ⟨i, hi⟩).price).getD 0 →
      ∀ s t : Int, items.foldl totalStep (some s) = some t →
      ∃ t' : Int,
        (items.set i { items.get ⟨i, hi⟩ with quantity := q' }).foldl
            totalStep (some s) = some t' ∧
        t ≤ t' := by
  intro items
  induction items with
  | nil => intro i hi; exact absurd hi (by simp)
  | cons x xs ih =>
    intro i hi q' hq hp0 s t ht
    rw [List.foldl_cons] at ht
    cases i with
    | zero =>
      cases hp : parsePrice x.price with
      | none =>
        rw [show totalStep (some s) x = none from by simp [totalStep, hp],
          calcTotal_foldl_none] at ht
        exact absurd ht (by simp)
      | some p =>
        have hple : 0 ≤ p := by
          rw [show (x :: xs).get ⟨0, hi⟩ = x from rfl, hp] at hp0
          simpa using hp0
        rw [show totalStep (some s) x = some (s + p * x.quantity) from by
          simp [totalStep, hp]] at ht
        obtain ⟨u, hu, hshift⟩ := calcTotal_foldl_shift xs (s + p * x.quantity) t ht
        refine ⟨s + p * q' + u, ?_, ?_⟩
        · show (({ x with quantity := q' } : CartItem) :: xs).foldl totalStep
              (some s) = some (s + p * q' + u)
          rw [List.foldl_cons,
            show totalStep (some s) ({ x with quantity := q' } : CartItem) =
              some (s + p * q') from by simp [totalStep, hp]]
          exact hshift (s + p * q')
        · have hq0 : x.quantity ≤ q' := hq
          have hmul : p * x.quantity ≤ p * q' :=
            mul_le_mul_of_nonneg_left hq0 hple
          linarith [hu]
    | succ n =>
      cases hp : parsePrice x.price with
      | none =>
        rw [show totalStep (some s) x = none from by simp [totalStep, hp],
          calcTotal_foldl_none] at ht
        exact absurd ht (by simp)
      | some p =>
        rw [show totalStep (some s) x = some (s + p * x.quantity) from by
          simp [totalStep, hp]] at ht
        have hi' : n < xs.length := by simpa using hi
        have hq' : (xs.get ⟨n, hi'⟩).quantity ≤ q' := hq
        have hp0' : 0 ≤ (parsePrice (xs.get ⟨n, hi'⟩).price).getD 0 := hp0
        obtain ⟨t', hset, hle⟩ := ih n hi' q' hq' hp0' (s + p * x.quantity) t ht
        refine ⟨t', ?_, hle⟩
        show (x :: xs.set n { xs.get ⟨n, hi'⟩ with quantity := q' }).foldl
            totalStep (some s) = some t'
        rw [List.foldl_cons,
          show totalStep (some s) x = some (s + p * x.quantity) from by
            simp [totalStep, hp]]
        exact hset

/-- C6 counterexample: `calculateTotalPrice` is not monotonic in quantity
over all carts.  The price string "-5đ" survives the code's cleaning as
"-5" and parses to -5, so raising the single line's quantity from 1 to 2
(the second cart is the first with that line's quantity increased) lowers
the computed total from -5 to -10. -/
theorem computeTotal_monotonic_counterexample :
    calculateTotalPrice
        [{ id := "1", productId := "p", name := "n", price := "-5đ",
           image := "i", quantity := 1, category := none }] = some (-5) ∧
    ([({ id := "1", productId := "p", name := "n", price := "-5đ",
         image := "i", quantity := 1, category := none } : CartItem)].set 0
        { ([({ id := "1", productId := "p", name := "n", price := "-5đ",
               image := "i", quantity := 1, category := none } : CartItem)].get
            ⟨0, by decide⟩) with quantity := 2 }) =
      [{ id := "1", productId := "p", name := "n", price := "-5đ",
         image := "i", quantity := 2, category := none }] ∧
    calculateTotalPrice
        [{ id := "1", productId := "p", name := "n", price := "-5đ",
           image := "i", quantity := 2, category := none }] = some (-10) ∧
    (1 : Int) ≤ 2 ∧ (-10 : Int) < -5 := by
  refine ⟨by decide, rfl, by decide, by decide, by decide⟩

/-- C6 amended: increasing the quantity of a line whose price parses to a
nonnegative amount — as every well-formed formatted currency string does —
never decreases `calculateTotalPrice`: whenever the original cart totals to
a value, the bumped cart totals to a value at least as large. -/
theorem computeTotal_monotonic_nonneg_price :
    ∀ (items : List CartItem) (i : Nat) (hi : i < items.length) (q' : Int),
      (items.get ⟨i, hi⟩).quantity ≤ q' →
      0 ≤ (parsePrice (items.get ⟨i, hi⟩).price).getD 0 →
      ∀ t : Int, calculateTotalPrice items = some t →
      ∃ t' : Int,
        calculateTotalPrice
            (items.set i { items.get ⟨i, hi⟩ with quantity := q' }) =
          some t' ∧
        t ≤ t' := by
  intro items i hi q' hq hp t ht
  exact calcTotal_foldl_mono items i hi q' hq hp 0 t ht

/-- C6 witness: bumping the 2-quantity line of a concrete well-priced cart
to quantity 3 keeps the total defined and at least the old total. -/
theorem computeTotal_monotonic_nonneg_price_witness :
    ∃ t' : Int,
      calculateTotalPrice
          ([({ id := "1", productId := "p", name := "n", price := "10.000đ",
               image := "i", quantity := 2, category := none } : CartItem)].set 0
            { ([({ id := "1", productId := "p", name := "n",
                   price := "10.000đ", image := "i", quantity := 2,
                   category := none } : CartItem)].get ⟨0, by decide⟩) with
              quantity := 3 }) =
        some t' ∧
      (20000 : Int) ≤ t' :=
  computeTotal_monotonic_nonneg_price
    [{ id := "1", productId := "p", name := "n", price := "10.000đ",
       image := "i", quantity := 2, category := none }]
    0 (by decide) 3 (by decide) (by decide) 20000 (by decide)

/-- Membership in an insertion is membership in the inserted element or the
old list. -/
theorem mem_insertOrderDesc (o x : HistOrder) (l : List HistOrder) :
    x ∈ insertOrderDesc o l ↔ x = o ∨ x ∈ l := by
  induction l with
  | nil => simp [insertOrderDesc]
  | cons y ys ih =>
    by_cases h : o.orderDate < y.orderDate
    · simp only [insertOrderDesc, if_pos h, List.mem_cons, ih]
      tauto
    · simp only [insertOrderDesc, if_neg h, List.mem_cons]

/-- Insertion preserves the descending-by-date pairwise invariant. -/
theorem pairwise_insertOrderDesc (o : HistOrder) (l : List HistOrder)
    (h : List.Pairwise (fun a b => b.orderDate ≤ a.orderDate) l) :
    List.Pairwise (fun a b => b.orderDate ≤ a.orderDate)
      (insertOrderDesc o l) := by
  induction l with
  | nil => simp [insertOrderDesc]
  | cons y ys ih =>
    rw [List.pairwise_cons] at h
    by_cases hlt : o.orderDate < y.orderDate
    · rw [insertOrderDesc, if_pos hlt, List.pairwise_cons]
      refine ⟨?_, ih h.2⟩
      intro z hz
      rcases (mem_insertOrderDesc o z ys).mp hz with rfl | hzys
      · exact le_of_lt hlt
      · exact h.1 z hzys
    · rw [insertOrderDesc, if_neg hlt, List.pairwise_cons]
      refine ⟨?_, List.pairwise_cons.mpr h⟩
      intro z hz
      rcases List.mem_cons.mp hz with rfl | hzys
      · exact not_lt.mp hlt
      · exact le_trans (h.1 z hzys) (not_lt.mp hlt)

/-- `fetchOrders` produces a list that is pairwise descending by date. -/
theorem fetchOrders_pairwise (l : List HistOrder) :
    List.Pairwise (fun a b => b.orderDate ≤ a.orderDate) (sortOrdersDesc l) := by
  induction l with
  | nil => simp [sortOrdersDesc]
  | cons x xs ih => exact pairwise_insertOrderDesc x (sortOrdersDesc xs) ih

/-- Filtering by a predicate that the inserted element satisfies, and that
no strictly more recent order can satisfy, commutes with insertion. -/
theorem filter_insertOrderDesc_pos (p : HistOrder → Bool) (o : HistOrder)
    (l : List HistOrder) (hpo : p o = true)
    (hgt : ∀ y : HistOrder, o.orderDate < y.orderDate → p y = false) :
    (insertOrderDesc o l).filter p = o :: l.filter p := by
  induction l with
  | nil => simp [insertOrderDesc, hpo]
  | cons y ys ih =>
    by_cases h : o.orderDate < y.orderDate
    · rw [insertOrderDesc, if_pos h, List.filter_cons_of_neg (by simp [hgt y h]),
        List.filter_cons_of_neg (by simp [hgt y h]), ih]
    · rw [insertOrderDesc, if_neg h, List.filter_cons_of_pos hpo]

/-- Filtering by a predicate that the inserted element fails commutes with
insertion. -/
theorem filter_insertOrderDesc_neg (p : HistOrder → Bool) (o : HistOrder)
    (l : List HistOrder) (hpo : p o = false) :
    (insertOrderDesc o l).filter p = l.filter p := by
  induction l with
  | nil => simp [insertOrderDesc, hpo]
  | cons y ys ih =>
    by_cases h : o.orderDate < y.orderDate
    · rw [insertOrderDesc, if_pos h]
      by_cases hy : p y = true
      · rw [List.filter_cons_of_pos hy, List.filter_cons_of_pos hy, ih]
      · rw [List.filter_cons_of_neg hy, List.filter_cons_of_neg hy, ih]
    · rw [insertOrderDesc, if_neg h, List.filter_cons_of_neg (by simp [hpo])]

/-- Tie stability: the orders carrying one fixed timestamp appear in the
sorted list exactly as they appear in the fetched list. -/
theorem sortOrdersDesc_filter_date (d : Int) (l : List HistOrder) :
    (sortOrdersDesc l).filter (fun o => o.orderDate == d) =
      l.filter (fun o => o.orderDate == d) := by
  induction l with
  | nil => rfl
  | cons x xs ih =>
    show (insertOrderDesc x (sortOrdersDesc xs)).filter
        (fun o => o.orderDate == d) = _
    by_cases hx : x.orderDate = d
    · rw [filter_insertOrderDesc_pos _ _ _ (by simp [hx])
        (fun y hy => by simp; omega), ih,
        List.filter_cons_of_pos (by simp [hx])]
    · rw [filter_insertOrderDesc_neg _ _ _ (by simp [hx]), ih,
        List.filter_cons_of_neg (by simp [hx])]

/-- Adding an order under a key keeps the key sequence, except that a fresh
key is appended at the end. -/
theorem map_fst_addToGroup (g : List (String × List HistOrder)) (k : String)
    (o : HistOrder) :
    (addToGroup g k o).map Prod.fst =
      if k ∈ g.map Prod.fst then g.map Prod.fst
      else g.map Prod.fst ++ [k] := by
  induction g with
  | nil => simp [addToGroup]
  | cons e rest ih =>
    obtain ⟨k', os⟩ := e
    by_cases h : k' = k
    · subst h
      rw [addToGroup, if_pos rfl]
      simp
    · rw [addToGroup, if_neg h]
      by_cases hm : k ∈ rest.map Prod.fst
      · simp only [List.map_cons, ih, if_pos hm]
        rw [if_pos (by simp [hm])]
      · simp only [List.map_cons, ih, if_neg hm]
        rw [if_neg (by simp [hm]; exact fun hc => h hc.symm)]
        simp

/-- Adding an order under a key appends it to that key's bucket. -/
theorem bucketOf_addToGroup_same (g : List (String × List HistOrder))
    (k : String) (o : HistOrder) :
    bucketOf (addToGroup g k o) k = bucketOf g k ++ [o] := by
  induction g with
  | nil => simp [addToGroup, bucketOf, List.find?]
  | cons e rest ih =>
    obtain ⟨k', os⟩ := e
    by_cases h : k' = k
    · subst h
      rw [addToGroup, if_pos rfl]
      simp [bucketOf, List.find?]
    · rw [addToGroup, if_neg h]
      have hbeq : (k' == k) = false := beq_eq_false_iff_ne.mpr h
      simp only [bucketOf, List.find?, hbeq] at ih ⊢
      exact ih

/-- Adding an order under one key leaves every other key's bucket alone. -/
theorem bucketOf_addToGroup_other (g : List (String × List HistOrder))
    (k : String) (o : HistOrder) (k2 : String) (h : k2 ≠ k) :
    bucketOf (addToGroup g k o) k2 = bucketOf g k2 := by
  induction g with
  | nil =>
    simp [addToGroup, bucketOf, List.find?,
      beq_eq_false_iff_ne.mpr (fun hc => h hc.symm)]
  | cons e rest ih =>
    obtain ⟨k', os⟩ := e
    by_cases hk : k' = k
    · subst hk
      rw [addToGroup, if_pos rfl]
      have hbeq : (k' == k2) = false := beq_eq_false_iff_ne.mpr
        (fun hc => h hc.symm)
      simp [bucketOf, List.find?, hbeq]
    · rw [addToGroup, if_neg hk]
      by_cases hk2 : k' = k2
      · subst hk2
        simp [bucketOf, List.find?]
      · have hbeq : (k' == k2) = false := beq_eq_false_iff_ne.mpr hk2
        simp only [bucketOf, List.find?, hbeq] at ih ⊢
        exact ih

/-- The grouping fold over a snoc processes the last order last. -/
theorem groupOrdersByDate_snoc (l : List HistOrder) (o : HistOrder) :
    groupOrdersByDate (l ++ [o]) =
      addToGroup (groupOrdersByDate l) (formatDate o.orderDate) o := by
  unfold groupOrdersByDate
  rw [List.foldl_append]
  rfl

/-- The first-seen fold over a snoc processes the last key last. -/
theorem firstSeenKeys_snoc (ks : List String) (k : String) :
    firstSeenKeys (ks ++ [k]) =
      if k ∈ firstSeenKeys ks then firstSeenKeys ks
      else firstSeenKeys ks ++ [k] := by
  unfold firstSeenKeys
  rw [List.foldl_append]
  rfl

/-- The bucket keys of the grouping are the day keys of the input in
first-seen order. -/
theorem groupOrdersByDate_keys (l : List HistOrder) :
    (groupOrdersByDate l).map Prod.fst =
      firstSeenKeys (l.map (fun o => formatDate o.orderDate)) := by
  induction l using List.reverseRecOn with
  | nil => rfl
  | append_singleton l o ih =>
    rw [groupOrdersByDate_snoc, map_fst_addToGroup, List.map_append,
      List.map_singleton, firstSeenKeys_snoc, ih]

/-- Every bucket of the grouping is the subsequence of the input carrying
that day key, in input order. -/
theorem bucketOf_groupOrdersByDate (l : List HistOrder) (k : String) :
    bucketOf (groupOrdersByDate l) k =
      l.filter (fun o => formatDate o.orderDate == k) := by
  induction l using List.reverseRecOn with
  | nil => rfl
  | append_singleton l o ih =>
    rw [groupOrdersByDate_snoc]
    by_cases h : k = formatDate o.orderDate
    · subst h
      rw [bucketOf_addToGroup_same, ih, List.filter_append,
        List.filter_cons_of_pos (by simp)]
      rfl
    · rw [bucketOf_addToGroup_other _ _ _ _ h, ih, List.filter_append,
        List.filter_cons_of_neg (by simp; exact fun hc => h hc.symm)]
      simp

/-- C8: `fetchOrders` sorts descending by `orderDate` (an order with a
strictly greater timestamp appears strictly earlier; orders carrying any
one fixed timestamp keep their original fetch order), and `groupOrdersByDate`
on the sorted sequence yields calendar-day buckets whose keys appear in
first-seen order and whose contents are the filtered subsequences in order;
on the dates [D2, D1, D2] the sorted sequence is [D2, D2, D1] (tie in fetch
order) and the buckets are [D2, D1] with both D2 orders together in their
original relative order. -/
theorem fetchOrders_sort_group_spec :
    ∀ resp : List HistOrder,
      (∀ (i j : Nat) (hi : i < (fetchOrders resp).length)
          (hj : j < (fetchOrders resp).length),
        ((fetchOrders resp).get ⟨j, hj⟩).orderDate <
            ((fetchOrders resp).get ⟨i, hi⟩).orderDate →
          i < j) ∧
      (∀ d : Int,
        (fetchOrders resp).filter (fun o => o.orderDate == d) =
          resp.filter (fun o => o.orderDate == d)) ∧
      ((groupOrdersByDate (fetchOrders resp)).map Prod.fst =
        firstSeenKeys
          ((fetchOrders resp).map (fun o => formatDate o.orderDate))) ∧
      (∀ k : String,
        bucketOf (groupOrdersByDate (fetchOrders resp)) k =
          (fetchOrders resp).filter
            (fun o => formatDate o.orderDate == k)) ∧
      (fetchOrders [⟨"a", 172800005⟩, ⟨"b", 86400000⟩, ⟨"c", 172800005⟩] =
          [⟨"a", 172800005⟩, ⟨"c", 172800005⟩, ⟨"b", 86400000⟩] ∧
        groupOrdersByDate
            [⟨"a", 172800005⟩, ⟨"c", 172800005⟩, ⟨"b", 86400000⟩] =
          [("3/1/1970", [⟨"a", 172800005⟩, ⟨"c", 172800005⟩]),
           ("2/1/1970", [⟨"b", 86400000⟩])]) := by
  intro resp
  refine ⟨?_, fun d => sortOrdersDesc_filter_date d resp,
    groupOrdersByDate_keys _, fun k => bucketOf_groupOrdersByDate _ k,
    by decide, by decide⟩
  intro i j hi hj hlt
  by_contra hc
  have hji : j ≤ i := not_lt.mp hc
  rcases Nat.lt_or_ge j i with hji' | hij
  · have hp := List.pairwise_iff_get.mp (fetchOrders_pairwise resp)
      ⟨j, hj⟩ ⟨i, hi⟩ hji'
    exact absurd hp (not_le.mpr hlt)
  · have : i = j := le_antisymm hij hji
    subst this
    exact lt_irrefl _ hlt

/-- C8 witness: on the concrete [D2, D1, D2] fetch, the strictly newer
order at sorted index 0 precedes the older order at sorted index 2, and the
orders carrying the D1 timestamp keep their fetch order. -/
theorem fetchOrders_sort_group_spec_witness :
    (0 : Nat) < 2 ∧
      (fetchOrders [⟨"a", 172800005⟩, ⟨"b", 86400000⟩,
          ⟨"c", 172800005⟩]).filter (fun o => o.orderDate == 86400000) =
        ([⟨"a", 172800005⟩, ⟨"b", 86400000⟩,
          ⟨"c", 172800005⟩] : List HistOrder).filter
          (fun o => o.orderDate == 86400000) :=
  ⟨(fetchOrders_sort_group_spec
      [⟨"a", 172800005⟩, ⟨"b", 86400000⟩, ⟨"c", 172800005⟩]).1 0 2
      (by decide) (by decide) (by decide),
   (fetchOrders_sort_group_spec
      [⟨"a", 172800005⟩, ⟨"b", 86400000⟩, ⟨"c", 172800005⟩]).2.1 86400000⟩

/-- C9 counterexample: the productId "ab" contains the substring "b" yet
`getItemType` classifies it as "pot", not "accessory" — the claim's clause
that every productId containing "b" maps to accessory is false. -/
theorem getItemType_b_clause_counterexample :
    jsIncludes "ab" "b" = true ∧ getItemType "ab" ≠ "accessory" ∧
      getItemType "ab" = "pot" := by
  decide

/-- C9 amended: `getItemType` is a total function into the three category
labels; every productId containing "a" maps to "pot", every productId
containing "b" but not "a" maps to "accessory", and every other productId
maps to "plant". -/
theorem getItemType_classification :
    ∀ productId : String,
      (getItemType productId = "pot" ∨ getItemType productId = "accessory" ∨
        getItemType productId = "plant") ∧
      (jsIncludes productId "a" = true → getItemType productId = "pot") ∧
      (jsIncludes productId "a" = false → jsIncludes productId "b" = true →
        getItemType productId = "accessory") ∧
      (jsIncludes productId "a" = false → jsIncludes productId "b" = false →
        getItemType productId = "plant") := by
  intro s
  unfold getItemType
  cases ha : jsIncludes s "a" <;> cases hb : jsIncludes s "b" <;> simp [ha, hb]

/-- C9 witness: the amended clauses applied at concrete productIds. -/
theorem getItemType_classification_witness :
    getItemType "ab" = "pot" ∧ getItemType "xb" = "accessory" ∧
      getItemType "xyz" = "plant" :=
  ⟨(getItemType_classification "ab").2.1 (by decide),
   (getItemType_classification "xb").2.2.1 (by decide) (by decide),
   (getItemType_classification "xyz").2.2.2 (by decide) (by decide)⟩

/-- C10: the "a" check takes precedence — a productId containing both "a"
and "b" maps to "pot" — and both checks are case-sensitive: a productId
with no lowercase "a" and no lowercase "b" maps to "plant", so "AB"
(which contains uppercase "A" and "B") maps to "plant". -/
theorem getItemType_precedence_case_sensitive :
    (∀ productId : String, jsIncludes productId "a" = true →
        jsIncludes productId "b" = true → getItemType productId = "pot") ∧
    (∀ productId : String, jsIncludes productId "a" = false →
        jsIncludes productId "b" = false → getItemType productId = "plant") ∧
    jsIncludes "AB" "A" = true ∧ jsIncludes "AB" "B" = true ∧
      getItemType "AB" = "plant" := by
  refine ⟨?_, ?_, by decide, by decide, by decide⟩
  · intro s ha _
    unfold getItemType
    simp [ha]
  · intro s ha hb
    unfold getItemType
    simp [ha, hb]

/-- C10 witness: the precedence clause applied at "ab" and the
case-sensitivity clause applied at "AB". -/
theorem getItemType_precedence_case_sensitive_witness :
    getItemType "ab" = "pot" ∧ getItemType "AB" = "plant" :=
  ⟨getItemType_precedence_case_sensitive.1 "ab" (by decide) (by decide),
   getItemType_precedence_case_sensitive.2.1 "AB" (by decide) (by decide)⟩
